import Mathlib

/-!
Shallow embedding of the movies REST API: the request handlers of
src/server.js and the zod movie schema of src/schemas/movies.js
(validateMovie / validateMoviePartial).

JavaScript objects are modelled as association lists of string keys and
JSON values; the handlers are pure functions from (store, request data)
to (new store, list of attempted responses).  A handler that falls
through a missing early return attempts several sends; the list records
them in program order (the first element is the response the client
actually receives; later sends fail at the transport layer but the store
mutations between them have already happened).
-/

namespace MoviesApi

/-- JSON values as this program uses them: strings, numbers
(JavaScript numbers, embedded as rationals) and arrays. -/
inductive JVal where
  | str : String → JVal
  | num : ℚ → JVal
  | arr : List JVal → JVal

mutual

def JVal.decEq : (a b : JVal) → Decidable (a = b)
  | .str a, .str b =>
      if h : a = b then .isTrue (by rw [h])
      else .isFalse (by intro hc; injection hc with h2; exact h h2)
  | .str _, .num _ => .isFalse (fun hc => JVal.noConfusion hc)
  | .str _, .arr _ => .isFalse (fun hc => JVal.noConfusion hc)
  | .num _, .str _ => .isFalse (fun hc => JVal.noConfusion hc)
  | .num a, .num b =>
      if h : a = b then .isTrue (by rw [h])
      else .isFalse (by intro hc; injection hc with h2; exact h h2)
  | .num _, .arr _ => .isFalse (fun hc => JVal.noConfusion hc)
  | .arr _, .str _ => .isFalse (fun hc => JVal.noConfusion hc)
  | .arr _, .num _ => .isFalse (fun hc => JVal.noConfusion hc)
  | .arr a, .arr b =>
      match JVal.decEqList a b with
      | .isTrue h => .isTrue (by rw [h])
      | .isFalse h => .isFalse (by intro hc; injection hc with h2; exact h h2)

def JVal.decEqList : (a b : List JVal) → Decidable (a = b)
  | [], [] => .isTrue rfl
  | [], _ :: _ => .isFalse (fun hc => List.noConfusion hc)
  | _ :: _, [] => .isFalse (fun hc => List.noConfusion hc)
  | x :: xs, y :: ys =>
      match JVal.decEq x y, JVal.decEqList xs ys with
      | .isTrue h1, .isTrue h2 => .isTrue (by rw [h1, h2])
      | .isFalse h1, _ => .isFalse (by intro hc; injection hc with ha hb; exact h1 ha)
      | _, .isFalse h2 => .isFalse (by intro hc; injection hc with ha hb; exact h2 hb)

end

instance : DecidableEq JVal := JVal.decEq

/-- A JavaScript object: an association list of key/value pairs
(keys are unique in every object this program builds). -/
abbrev Obj := List (String × JVal)

/-- Property access o[k]: the first pair carrying the key, as in a JS object. -/
def Obj.get (o : Obj) (k : String) : Option JVal :=
  (o.find? (fun p => p.1 == k)).map Prod.snd

/-- JavaScript object spread of two objects: keys of the left
object keep their position but take the right object's value when it has
the key; keys only in the right object are appended in their order. -/
def Obj.spread (a b : Obj) : Obj :=
  a.map (fun p => (p.1, (Obj.get b p.1).getD p.2)) ++
    b.filter (fun p => (Obj.get a p.1).isNone)


/-! ## The zod movie schema (src/schemas/movies.js)

movieSchema = z.object of title: string, year: int in [1900, current
year], director: string, duration: positive int, genre: array over the
six-value enum, rating: number in [0, 10] with default 5.  safeParse
runs every check of every field and accumulates one issue per failed
check, in schema declaration order; unknown keys are stripped from the
parsed data. -/

/-- A location inside the candidate object: a field name or an array index. -/
inductive PathSeg where
  | key : String → PathSeg
  | idx : Nat → PathSeg
  deriving DecidableEq

/-- One zod issue: where it happened and which constraint failed. -/
structure Issue where
  path : List PathSeg
  code : String
  deriving DecidableEq

/-- The fixed genre enum of the schema. -/
def GENRES : List String :=
  ["action", "adventure", "sci-fi", "fantasy", "drama", "crime"]

/-- z.string(): any string value is accepted. -/
def stringCheck (f : String) : JVal → List Issue
  | .str _ => []
  | _ => [⟨[.key f], "invalid_type"⟩]

/-- z.number().int().min(1900).max(currentYear) on a present value: a
non-number is a type error; a number runs all three checks and reports
each failed one. -/
def yearCheck (currentYear : ℤ) : JVal → List Issue
  | .num q =>
      (if q.den = 1 then [] else [⟨[.key "year"], "invalid_type_integer"⟩]) ++
      (if q < 1900 then [⟨[.key "year"], "too_small"⟩] else []) ++
      (if (currentYear : ℚ) < q then [⟨[.key "year"], "too_big"⟩] else [])
  | _ => [⟨[.key "year"], "invalid_type"⟩]

/-- z.number().int().positive() for duration. -/
def durationCheck : JVal → List Issue
  | .num q =>
      (if q.den = 1 then [] else [⟨[.key "duration"], "invalid_type_integer"⟩]) ++
      (if q ≤ 0 then [⟨[.key "duration"], "too_small"⟩] else [])
  | _ => [⟨[.key "duration"], "invalid_type"⟩]

/-- z.number().min(0).max(10) for a present rating value. -/
def ratingCheck : JVal → List Issue
  | .num q =>
      (if q < 0 then [⟨[.key "rating"], "too_small"⟩] else []) ++
      (if 10 < q then [⟨[.key "rating"], "too_big"⟩] else [])
  | _ => [⟨[.key "rating"], "invalid_type"⟩]

/-- One element of the genre array against z.enum([...]); the issue path
carries the element index. -/
def genreElemCheck (i : Nat) : JVal → List Issue
  | .str s => if GENRES.contains s then [] else [⟨[.key "genre", .idx i], "invalid_enum_value"⟩]
  | _ => [⟨[.key "genre", .idx i], "invalid_type"⟩]

/-- The elements of the genre array checked one by one, indices counted
from i. -/
def genreArrCheck (i : Nat) : List JVal → List Issue
  | [] => []
  | g :: gs => genreElemCheck i g ++ genreArrCheck (i + 1) gs

/-- z.array(z.enum([...])) for genre: a non-array is a type error; an
array (the empty one included) is checked element by element. -/
def genreCheck : JVal → List Issue
  | .arr gs => genreArrCheck 0 gs
  | _ => [⟨[.key "genre"], "invalid_type"⟩]

/-- A required object field: absence is itself an issue (zod reports
invalid_type, expected ..., received undefined — the Required issue). -/
def requireField (o : Obj) (f : String) (check : JVal → List Issue) : List Issue :=
  match Obj.get o f with
  | none => [⟨[.key f], "required"⟩]
  | some v => check v

/-- An optional object field: absence is fine, a present value is checked. -/
def optionalField (o : Obj) (f : String) (check : JVal → List Issue) : List Issue :=
  match Obj.get o f with
  | none => []
  | some v => check v

/-- All issues of a full movieSchema.safeParse, in schema declaration
order.  rating is optional here because z.default makes the absent key
parse to the default value without running the number checks. -/
def fullIssues (currentYear : ℤ) (o : Obj) : List Issue :=
  requireField o "title" (stringCheck "title") ++
  requireField o "year" (yearCheck currentYear) ++
  requireField o "director" (stringCheck "director") ++
  requireField o "duration" durationCheck ++
  requireField o "genre" genreCheck ++
  optionalField o "rating" ratingCheck

/-- All issues of movieSchema.partial().safeParse: every field optional,
same per-field checks, absent fields never reported. -/
def looseIssues (currentYear : ℤ) (o : Obj) : List Issue :=
  optionalField o "title" (stringCheck "title") ++
  optionalField o "year" (yearCheck currentYear) ++
  optionalField o "director" (stringCheck "director") ++
  optionalField o "duration" durationCheck ++
  optionalField o "genre" genreCheck ++
  optionalField o "rating" ratingCheck

/-- The parsed data of a successful full parse: exactly the six schema
keys in declaration order, values taken from the candidate, rating
defaulted to 5 when absent.  (The getD fallbacks of the other five keys
are never reached on the success path, where every required key is
present.) -/
def fullData (o : Obj) : Obj :=
  [("title", (Obj.get o "title").getD (JVal.str "")),
   ("year", (Obj.get o "year").getD (JVal.str "")),
   ("director", (Obj.get o "director").getD (JVal.str "")),
   ("duration", (Obj.get o "duration").getD (JVal.str "")),
   ("genre", (Obj.get o "genre").getD (JVal.arr [])),
   ("rating", (Obj.get o "rating").getD (JVal.num 5))]

/-- The schema keys, in declaration order. -/
def SCHEMA_KEYS : List String :=
  ["title", "year", "director", "duration", "genre", "rating"]

/-- The parsed data of a successful .partial() parse: the schema keys the
candidate supplies, in schema order, with their candidate values; absent
keys (rating included — optional wraps the default away) are omitted and
unknown keys are stripped. -/
def looseData (o : Obj) : Obj :=
  SCHEMA_KEYS.filterMap (fun f => (Obj.get o f).map (fun v => (f, v)))

/-- The zod SafeParseResult: success with data, or failure with the issue
list (and data undefined). -/
inductive ParseResult where
  | ok : Obj → ParseResult
  | err : List Issue → ParseResult
  deriving DecidableEq

def ParseResult.success : ParseResult → Bool
  | .ok _ => true
  | .err _ => false

/-- result.data as the handlers spread it: an undefined data (failure
case) spreads to nothing, exactly like an empty object. -/
def ParseResult.dataObj : ParseResult → Obj
  | .ok d => d
  | .err _ => []

def ParseResult.issues : ParseResult → List Issue
  | .ok _ => []
  | .err es => es

/-- validateMovie of src/schemas/movies.js: movieSchema.safeParse. -/
def validateMovie (currentYear : ℤ) (o : Obj) : ParseResult :=
  if fullIssues currentYear o = [] then .ok (fullData o)
  else .err (fullIssues currentYear o)

/-- validateMoviePartial of src/schemas/movies.js:
movieSchema.partial().safeParse. -/
def validateMoviePartial (currentYear : ℤ) (o : Obj) : ParseResult :=
  if looseIssues currentYear o = [] then .ok (looseData o)
  else .err (looseIssues currentYear o)

/-! ## The request handlers (src/server.js) -/

/-- Response bodies the handlers produce. -/
inductive RespBody where
  | jsonList : List Obj → RespBody
  | jsonObj : Obj → RespBody
  | jsonMsg : String → RespBody
  | jsonErr : List Issue → RespBody
  | html : String → RespBody
  | sendStatus : RespBody
  deriving DecidableEq

/-- One attempted send: status code, body, response headers set so far. -/
structure Response where
  status : Nat
  body : RespBody
  headers : List (String × String)
  deriving DecidableEq

/-- The fixed allow-list of src/server.js. -/
def ACCEPTED_ORIGINS : List String :=
  ["http://localhost:8080", "http://localhost:1234", "https://movies.com"]

/-- The CORS block of the GET /movies and DELETE handlers: the origin
header value is tested for membership in ACCEPTED_ORIGINS (an absent
header, undefined in JS, is never a member) and echoed back when found. -/
def corsHeaders (origin : Option String) : List (String × String) :=
  match origin with
  | some o => if ACCEPTED_ORIGINS.contains o then [("Access-Control-Allow-Origin", o)] else []
  | none => []

/-- JS truthiness of the genre query parameter: present and nonempty. -/
def queryTruthy : Option String → Bool
  | none => false
  | some s => !(s == "")

/-- toLowerCase of a genre entry: lowercase every character.  Every genre
value this program stores is a string; on a non-string the JS method call
would throw, a case no schema-conforming store reaches. -/
def jsToLower : JVal → String
  | .str s => ⟨s.data.map Char.toLower⟩
  | _ => ""

/-- The genre-branch filter predicate exactly as the source writes it:
movie.genre.some of (g.toLowerCase() === g.toLowerCase()) — both sides of
the comparison are the same expression; the query value never appears. -/
def genreSelfMatch (m : Obj) : Bool :=
  match Obj.get m "genre" with
  | some (.arr gs) => gs.any (fun g => jsToLower g == jsToLower g)
  | _ => false

/-- GET /movies: set CORS headers, then filter when the genre query
parameter is truthy, else return the whole store. -/
def getMovies (store : List Obj) (origin : Option String) (genreQ : Option String) : Response :=
  if queryTruthy genreQ then
    ⟨200, .jsonList (store.filter genreSelfMatch), corsHeaders origin⟩
  else
    ⟨200, .jsonList store, corsHeaders origin⟩

/-- movie.id === id, the lookup comparison of the by-id routes: strict
equality of the movie's id value with the path parameter string. -/
def movieIdMatches (id : String) (m : Obj) : Bool :=
  match Obj.get m "id" with
  | some (.str s) => s == id
  | _ => false

/-- GET /movies/:id: movies.find by id; 200 with the movie, else 400 with
an html not-found page. -/
def getMovieById (store : List Obj) (id : String) : Response :=
  match store.find? (movieIdMatches id) with
  | some m => ⟨200, .jsonObj m, []⟩
  | none => ⟨400, .html "<h1>Movie not found</h1>", []⟩

/-- POST /movies: validate, send a 400 on error WITHOUT returning, then
unconditionally build the new movie as the id object spread with
result.data (undefined data spreads to nothing), push it, and send 201.
The missing early return is reproduced from the source. -/
def postMovies (currentYear : ℤ) (store : List Obj) (body : Obj) (newId : String) :
    List Obj × List Response :=
  let result := validateMovie currentYear body
  let errResponses : List Response :=
    match result with
    | .err issues => [⟨400, .jsonErr issues, []⟩]
    | .ok _ => []
  let newMovie : Obj := Obj.spread [("id", .str newId)] result.dataObj
  (store ++ [newMovie], errResponses ++ [⟨201, .jsonObj newMovie, []⟩])

/-- PATCH /movies/:id: validate (a 400 is sent on failure, again without
returning), find the index, 404 and stop when absent, else replace the
entry by the old object spread with result.data and send 201. -/
def patchMovie (currentYear : ℤ) (store : List Obj) (id : String) (body : Obj) :
    List Obj × List Response :=
  let result := validateMoviePartial currentYear body
  let errResponses : List Response :=
    if result.success then [] else [⟨400, .jsonErr result.issues, []⟩]
  match store.findIdx? (movieIdMatches id) with
  | none => (store, errResponses ++ [⟨404, .jsonMsg "Movie not found", []⟩])
  | some i =>
      let updated := Obj.spread (store.getD i []) result.dataObj
      (store.set i updated, errResponses ++ [⟨201, .jsonObj updated, []⟩])

/-- DELETE /movies/:id: CORS headers, find the index, 404 when absent,
else splice the one entry out and send the confirmation (status 200, the
res.json default). -/
def deleteMovie (store : List Obj) (origin : Option String) (id : String) :
    List Obj × Response :=
  match store.findIdx? (movieIdMatches id) with
  | none => (store, ⟨404, .jsonMsg "Movie not found", corsHeaders origin⟩)
  | some i => (store.eraseIdx i, ⟨200, .jsonMsg "Movie deleted", corsHeaders origin⟩)

/-- The OPTIONS handler's allow-list test on (origin || !origin): a
truthy origin is looked up itself; an absent or empty origin turns the
argument into the boolean true, which is never an element of the string
allow-list. -/
def optionsAllowed (origin : Option String) : Bool :=
  match origin with
  | some o => if o == "" then false else ACCEPTED_ORIGINS.contains o
  | none => false

/-- OPTIONS /movies/:id: on an allowed origin set the three CORS headers,
then always answer 200. -/
def optionsMovies (origin : Option String) : Response :=
  if optionsAllowed origin then
    ⟨200, .sendStatus,
      [("Access-Control-Allow-Origin", origin.getD ""),
       ("Access-Control-Allow-Methods", "GET, POST, PATCH, DELETE"),
       ("Access-Control-Allow-Headers", "Content-Type, Authorization")]⟩
  else ⟨200, .sendStatus, []⟩

/-! ## Specification-side field contract (spec.md §3, §4.1) -/

/-- title is text. -/
def titleOK (o : Obj) : Prop := ∃ s, Obj.get o "title" = some (JVal.str s)

/-- year is an integer in [1900, current calendar year]. -/
def yearOK (currentYear : ℤ) (o : Obj) : Prop :=
  ∃ q : ℚ, Obj.get o "year" = some (JVal.num q) ∧ q.den = 1 ∧ 1900 ≤ q ∧ q ≤ (currentYear : ℚ)

/-- director is text. -/
def directorOK (o : Obj) : Prop := ∃ s, Obj.get o "director" = some (JVal.str s)

/-- duration is a positive integer. -/
def durationOK (o : Obj) : Prop :=
  ∃ q : ℚ, Obj.get o "duration" = some (JVal.num q) ∧ q.den = 1 ∧ 0 < q

/-- A genre entry is one of the six enum tags. -/
def genreVal (g : JVal) : Prop := ∃ s, g = JVal.str s ∧ s ∈ GENRES

/-- genre is a sequence (possibly empty) of enum tags. -/
def genreOK (o : Obj) : Prop :=
  ∃ gs, Obj.get o "genre" = some (JVal.arr gs) ∧ ∀ g ∈ gs, genreVal g

/-- rating, when present, is a number in [0, 10]; absence is fine
(defaulted). -/
def ratingOK (o : Obj) : Prop :=
  Obj.get o "rating" = none ∨
    ∃ q : ℚ, Obj.get o "rating" = some (JVal.num q) ∧ 0 ≤ q ∧ q ≤ 10

/-- Modelled from the spec: listByGenre returns the resources whose genre
sequence contains a case-insensitive match of the tag (spec.md §4.2) —
the behavior the source's self-comparing filter was meant to have. -/
def listByGenre (store : List Obj) (tag : String) : List Obj :=
  store.filter (fun m =>
    match Obj.get m "genre" with
    | some (.arr gs) => gs.any (fun g => jsToLower g == jsToLower (.str tag))
    | _ => false)

/-! ## Concrete fixtures for witnesses and counterexamples -/

/-- The spec's example of a valid full submission (year 2000, rating
omitted). -/
def goodBody : Obj :=
  [("title", .str "X"), ("year", .num 2000), ("director", .str "D"),
   ("duration", .num 90), ("genre", .arr [.str "drama"])]

/-- The spec's example of an invalid full submission (year 1899). -/
def badYearBody : Obj :=
  [("title", .str "X"), ("year", .num 1899), ("director", .str "D"),
   ("duration", .num 90), ("genre", .arr [.str "drama"])]

/-- A schema-conforming stored movie whose only genre is drama. -/
def dramaMovie : Obj :=
  [("id", .str "m1"), ("title", .str "X"), ("year", .num 2000),
   ("director", .str "D"), ("duration", .num 90),
   ("genre", .arr [.str "drama"]), ("rating", .num 5)]

/-- A second schema-conforming stored movie, genre action. -/
def actionMovie : Obj :=
  [("id", .str "m2"), ("title", .str "Y"), ("year", .num 2010),
   ("director", .str "E"), ("duration", .num 100),
   ("genre", .arr [.str "action"]), ("rating", .num 7)]

/-! ## Lookup and spread lemmas -/

@[simp] theorem Obj.get_nil (k : String) : Obj.get [] k = none := rfl

theorem Obj.get_cons (p : String × JVal) (o : Obj) (k : String) :
    Obj.get (p :: o) k = if p.1 == k then some p.2 else Obj.get o k := by
  simp only [Obj.get, List.find?]
  cases h : (p.1 == k) <;> simp [h]

theorem Obj.get_eq_none (a : Obj) (k : String)
    (hf : a.find? (fun p => p.1 == k) = none) : Obj.get a k = none := by
  simp only [Obj.get, hf, Option.map_none']

/-- Looking up a mapped association list whose map preserves keys. -/
theorem Obj.get_map_keyed (a : Obj) (f : String × JVal → JVal) (k : String) :
    Obj.get (a.map (fun p => (p.1, f p))) k =
      (a.find? (fun p => p.1 == k)).map (fun p => f p) := by
  induction a with
  | nil => rfl
  | cons p as ih =>
    rw [List.map_cons, Obj.get_cons]
    simp only [List.find?]
    cases h : (p.1 == k) <;> simp [h, ih]

theorem Obj.get_append (a b : Obj) (k : String) :
    Obj.get (a ++ b) k =
      match Obj.get a k with
      | some v => some v
      | none => Obj.get b k := by
  induction a with
  | nil => simp
  | cons p as ih =>
    rw [List.cons_append, Obj.get_cons, Obj.get_cons]
    cases h : (p.1 == k) <;> simp [h, ih]

/-- Filtering by a predicate that holds on every pair carrying key k does
not change the lookup of k. -/
theorem Obj.get_filter (b : Obj) (pred : String × JVal → Bool) (k : String)
    (h : ∀ p : String × JVal, p.1 = k → pred p = true) :
    Obj.get (b.filter pred) k = Obj.get b k := by
  induction b with
  | nil => rfl
  | cons q bs ih =>
    rw [List.filter_cons]
    cases hq : pred q
    · have hqk : (q.1 == k) = false := by
        cases hbq : (q.1 == k)
        · rfl
        · exact absurd (h q (eq_of_beq hbq)) (by simp [hq])
      simp only [Bool.false_eq_true, if_false]
      rw [ih, Obj.get_cons, hqk]
      simp
    · simp only [if_true]
      rw [Obj.get_cons, Obj.get_cons, ih]

/-- A field the right object provides fully replaces the left one's. -/
theorem Obj.get_spread_right (a b : Obj) (k : String) (v : JVal)
    (hb : Obj.get b k = some v) :
    Obj.get (Obj.spread a b) k = some v := by
  unfold Obj.spread
  rw [Obj.get_append, Obj.get_map_keyed]
  cases hf : a.find? (fun p => p.1 == k) with
  | some p =>
    have hbeq := List.find?_some hf
    have hpk : p.1 = k := eq_of_beq hbeq
    simp [hpk, hb]
  | none =>
    simp only [Option.map_none']
    rw [Obj.get_filter]
    · exact hb
    · intro p hp
      show (Obj.get a p.1).isNone = true
      rw [hp, Obj.get_eq_none a k hf]
      rfl

/-- A field the right object does not provide is left untouched. -/
theorem Obj.get_spread_left (a b : Obj) (k : String)
    (hb : Obj.get b k = none) :
    Obj.get (Obj.spread a b) k = Obj.get a k := by
  unfold Obj.spread
  rw [Obj.get_append, Obj.get_map_keyed]
  cases hf : a.find? (fun p => p.1 == k) with
  | some p =>
    have hbeq := List.find?_some hf
    have hpk : p.1 = k := eq_of_beq hbeq
    simp only [Option.map_some', hpk, hb, Option.getD_none]
    simp [Obj.get, hf]
  | none =>
    simp only [Option.map_none']
    rw [Obj.get_filter]
    · rw [hb, Obj.get_eq_none a k hf]
    · intro p hp
      show (Obj.get a p.1).isNone = true
      rw [hp, Obj.get_eq_none a k hf]
      rfl

/-- Spreading an empty object over o reproduces o exactly. -/
theorem Obj.spread_nil (a : Obj) : Obj.spread a [] = a := by
  unfold Obj.spread
  simp only [List.filter_nil, List.append_nil]
  induction a with
  | nil => rfl
  | cons p as ih => simp [ih]


/-! ## Validator characterization lemmas -/

theorem stringCheck_nil (f : String) (v : JVal) :
    stringCheck f v = [] ↔ ∃ s, v = JVal.str s := by
  cases v <;> simp [stringCheck]

theorem yearCheck_nil (cy : ℤ) (v : JVal) :
    yearCheck cy v = [] ↔
      ∃ q : ℚ, v = JVal.num q ∧ q.den = 1 ∧ 1900 ≤ q ∧ q ≤ (cy : ℚ) := by
  cases v with
  | num q =>
    constructor
    · intro h
      simp only [yearCheck] at h
      split_ifs at h <;> simp_all [not_lt]
    · rintro ⟨q', hq, h1, h2, h3⟩
      injection hq with h
      subst h
      simp [yearCheck, h1, not_lt.mpr h2, not_lt.mpr h3]
  | str s => simp [yearCheck]
  | arr gs => simp [yearCheck]

theorem durationCheck_nil (v : JVal) :
    durationCheck v = [] ↔ ∃ q : ℚ, v = JVal.num q ∧ q.den = 1 ∧ 0 < q := by
  cases v with
  | num q =>
    constructor
    · intro h
      simp only [durationCheck] at h
      split_ifs at h <;> simp_all [not_le]
    · rintro ⟨q', hq, h1, h2⟩
      injection hq with h
      subst h
      simp [durationCheck, h1, not_le.mpr h2]
  | str s => simp [durationCheck]
  | arr gs => simp [durationCheck]

theorem ratingCheck_nil (v : JVal) :
    ratingCheck v = [] ↔ ∃ q : ℚ, v = JVal.num q ∧ 0 ≤ q ∧ q ≤ 10 := by
  cases v with
  | num q =>
    constructor
    · intro h
      simp only [ratingCheck] at h
      split_ifs at h <;> simp_all [not_lt]
    · rintro ⟨q', hq, h1, h2⟩
      injection hq with h
      subst h
      simp [ratingCheck, not_lt.mpr h1, not_lt.mpr h2]
  | str s => simp [ratingCheck]
  | arr gs => simp [ratingCheck]

theorem genreElemCheck_nil (i : Nat) (g : JVal) :
    genreElemCheck i g = [] ↔ genreVal g := by
  cases g with
  | str s =>
    constructor
    · intro h
      simp only [genreElemCheck] at h
      split_ifs at h with hb
      exact ⟨s, rfl, List.elem_iff.mp hb⟩
    · rintro ⟨s', hs, hmem⟩
      injection hs with hss
      subst hss
      simp [genreElemCheck, hmem, List.elem_iff.mpr hmem]
  | num q => simp [genreElemCheck, genreVal]
  | arr gs => simp [genreElemCheck, genreVal]

theorem genreArrCheck_nil (gs : List JVal) :
    ∀ i, genreArrCheck i gs = [] ↔ ∀ g ∈ gs, genreVal g := by
  induction gs with
  | nil => intro i; simp [genreArrCheck]
  | cons g gs ih =>
    intro i
    simp [genreArrCheck, List.append_eq_nil, genreElemCheck_nil, ih (i + 1),
      List.forall_mem_cons]

theorem genreCheck_nil (v : JVal) :
    genreCheck v = [] ↔ ∃ gs, v = JVal.arr gs ∧ ∀ g ∈ gs, genreVal g := by
  cases v with
  | arr gs => simp [genreCheck, genreArrCheck_nil]
  | str s => simp [genreCheck]
  | num q => simp [genreCheck]

theorem titleIssues_nil (o : Obj) :
    requireField o "title" (stringCheck "title") = [] ↔ titleOK o := by
  cases h : Obj.get o "title" with
  | none => simp [requireField, h, titleOK]
  | some v => simp [requireField, h, stringCheck_nil, titleOK]

theorem directorIssues_nil (o : Obj) :
    requireField o "director" (stringCheck "director") = [] ↔ directorOK o := by
  cases h : Obj.get o "director" with
  | none => simp [requireField, h, directorOK]
  | some v => simp [requireField, h, stringCheck_nil, directorOK]

theorem yearIssues_nil (cy : ℤ) (o : Obj) :
    requireField o "year" (yearCheck cy) = [] ↔ yearOK cy o := by
  cases h : Obj.get o "year" with
  | none => simp [requireField, h, yearOK]
  | some v => simp [requireField, h, yearCheck_nil, yearOK]

theorem durationIssues_nil (o : Obj) :
    requireField o "duration" durationCheck = [] ↔ durationOK o := by
  cases h : Obj.get o "duration" with
  | none => simp [requireField, h, durationOK]
  | some v => simp [requireField, h, durationCheck_nil, durationOK]

theorem genreIssues_nil (o : Obj) :
    requireField o "genre" genreCheck = [] ↔ genreOK o := by
  cases h : Obj.get o "genre" with
  | none => simp [requireField, h, genreOK]
  | some v => simp [requireField, h, genreCheck_nil, genreOK]

theorem ratingIssues_nil (o : Obj) :
    optionalField o "rating" ratingCheck = [] ↔ ratingOK o := by
  cases h : Obj.get o "rating" with
  | none => simp [optionalField, h, ratingOK]
  | some v => simp [optionalField, h, ratingCheck_nil, ratingOK]

theorem fullIssues_nil_iff (cy : ℤ) (o : Obj) :
    fullIssues cy o = [] ↔
      titleOK o ∧ yearOK cy o ∧ directorOK o ∧ durationOK o ∧ genreOK o ∧ ratingOK o := by
  simp only [fullIssues, List.append_eq_nil]
  rw [titleIssues_nil, yearIssues_nil, directorIssues_nil, durationIssues_nil,
    genreIssues_nil, ratingIssues_nil]
  tauto

theorem validateMovie_success_iff (cy : ℤ) (o : Obj) :
    (validateMovie cy o).success = true ↔ fullIssues cy o = [] := by
  unfold validateMovie
  split <;> simp [ParseResult.success, *]

theorem validateMovie_issues (cy : ℤ) (o : Obj) :
    (validateMovie cy o).issues = fullIssues cy o := by
  unfold validateMovie
  split <;> simp [ParseResult.issues, *]

theorem validateMovie_data (cy : ℤ) (o : Obj)
    (h : (validateMovie cy o).success = true) :
    (validateMovie cy o).dataObj = fullData o := by
  unfold validateMovie at h ⊢
  split at h
  · simp [ParseResult.dataObj, *]
  · simp [ParseResult.success] at h

theorem optionalField_nil (o : Obj) (f : String) (check : JVal → List Issue) :
    optionalField o f check = [] ↔
      Obj.get o f = none ∨ ∃ v, Obj.get o f = some v ∧ check v = [] := by
  cases h : Obj.get o f with
  | none => simp [optionalField, h]
  | some v => simp [optionalField, h]

theorem titleLoose_nil (o : Obj) :
    optionalField o "title" (stringCheck "title") = [] ↔
      Obj.get o "title" = none ∨ titleOK o := by
  cases h : Obj.get o "title" with
  | none => simp [optionalField, h]
  | some v => simp [optionalField, h, stringCheck_nil, titleOK]

theorem yearLoose_nil (cy : ℤ) (o : Obj) :
    optionalField o "year" (yearCheck cy) = [] ↔
      Obj.get o "year" = none ∨ yearOK cy o := by
  cases h : Obj.get o "year" with
  | none => simp [optionalField, h]
  | some v => simp [optionalField, h, yearCheck_nil, yearOK]

theorem directorLoose_nil (o : Obj) :
    optionalField o "director" (stringCheck "director") = [] ↔
      Obj.get o "director" = none ∨ directorOK o := by
  cases h : Obj.get o "director" with
  | none => simp [optionalField, h]
  | some v => simp [optionalField, h, stringCheck_nil, directorOK]

theorem durationLoose_nil (o : Obj) :
    optionalField o "duration" durationCheck = [] ↔
      Obj.get o "duration" = none ∨ durationOK o := by
  cases h : Obj.get o "duration" with
  | none => simp [optionalField, h]
  | some v => simp [optionalField, h, durationCheck_nil, durationOK]

theorem genreLoose_nil (o : Obj) :
    optionalField o "genre" genreCheck = [] ↔
      Obj.get o "genre" = none ∨ genreOK o := by
  cases h : Obj.get o "genre" with
  | none => simp [optionalField, h]
  | some v => simp [optionalField, h, genreCheck_nil, genreOK]

theorem looseIssues_nil_iff (cy : ℤ) (o : Obj) :
    looseIssues cy o = [] ↔
      (Obj.get o "title" = none ∨ titleOK o) ∧
      (Obj.get o "year" = none ∨ yearOK cy o) ∧
      (Obj.get o "director" = none ∨ directorOK o) ∧
      (Obj.get o "duration" = none ∨ durationOK o) ∧
      (Obj.get o "genre" = none ∨ genreOK o) ∧
      ratingOK o := by
  simp only [looseIssues, List.append_eq_nil]
  rw [titleLoose_nil, yearLoose_nil, directorLoose_nil, durationLoose_nil,
    genreLoose_nil, ratingIssues_nil]
  tauto

theorem validateMoviePartial_success_iff (cy : ℤ) (o : Obj) :
    (validateMoviePartial cy o).success = true ↔ looseIssues cy o = [] := by
  unfold validateMoviePartial
  split <;> simp [ParseResult.success, *]

theorem validateMoviePartial_issues (cy : ℤ) (o : Obj) :
    (validateMoviePartial cy o).issues = looseIssues cy o := by
  unfold validateMoviePartial
  split <;> simp [ParseResult.issues, *]

theorem validateMoviePartial_data (cy : ℤ) (o : Obj)
    (h : (validateMoviePartial cy o).success = true) :
    (validateMoviePartial cy o).dataObj = looseData o := by
  unfold validateMoviePartial at h ⊢
  split at h
  · simp [ParseResult.dataObj, *]
  · simp [ParseResult.success] at h

/-! ## Issue-path lemmas: which field an issue points at -/

theorem stringCheck_path (f : String) (v : JVal) :
    ∀ e ∈ stringCheck f v, e.path.head? = some (.key f) := by
  cases v <;> simp [stringCheck]

theorem yearCheck_path (cy : ℤ) (v : JVal) :
    ∀ e ∈ yearCheck cy v, e.path.head? = some (.key "year") := by
  cases v with
  | num q =>
    intro e he
    simp only [yearCheck, List.mem_append] at he
    rcases he with (he | he) | he <;> split_ifs at he <;> simp_all
  | str s => simp [yearCheck]
  | arr gs => simp [yearCheck]

theorem durationCheck_path (v : JVal) :
    ∀ e ∈ durationCheck v, e.path.head? = some (.key "duration") := by
  cases v with
  | num q =>
    intro e he
    simp only [durationCheck, List.mem_append] at he
    rcases he with he | he <;> split_ifs at he <;> simp_all
  | str s => simp [durationCheck]
  | arr gs => simp [durationCheck]

theorem ratingCheck_path (v : JVal) :
    ∀ e ∈ ratingCheck v, e.path.head? = some (.key "rating") := by
  cases v with
  | num q =>
    intro e he
    simp only [ratingCheck, List.mem_append] at he
    rcases he with he | he <;> split_ifs at he <;> simp_all
  | str s => simp [ratingCheck]
  | arr gs => simp [ratingCheck]

theorem genreElemCheck_path (i : Nat) (g : JVal) :
    ∀ e ∈ genreElemCheck i g, e.path.head? = some (.key "genre") := by
  cases g with
  | str s =>
    intro e he
    simp only [genreElemCheck] at he
    split_ifs at he <;> simp_all
  | num q => simp [genreElemCheck]
  | arr gs => simp [genreElemCheck]

theorem genreArrCheck_path (gs : List JVal) :
    ∀ i, ∀ e ∈ genreArrCheck i gs, e.path.head? = some (.key "genre") := by
  induction gs with
  | nil => intro i e he; simp [genreArrCheck] at he
  | cons g gs ih =>
    intro i e he
    simp only [genreArrCheck, List.mem_append] at he
    rcases he with he | he
    · exact genreElemCheck_path i g e he
    · exact ih (i + 1) e he

theorem genreCheck_path (v : JVal) :
    ∀ e ∈ genreCheck v, e.path.head? = some (.key "genre") := by
  cases v with
  | arr gs => exact genreArrCheck_path gs 0
  | str s => simp [genreCheck]
  | num q => simp [genreCheck]

theorem requireField_path (o : Obj) (f : String) (check : JVal → List Issue)
    (hcheck : ∀ v, ∀ e ∈ check v, e.path.head? = some (.key f)) :
    ∀ e ∈ requireField o f check, e.path.head? = some (.key f) := by
  cases h : Obj.get o f with
  | none => simp [requireField, h]
  | some v =>
    intro e he
    simp only [requireField, h] at he
    exact hcheck v e he

theorem optionalField_path (o : Obj) (f : String) (check : JVal → List Issue)
    (hcheck : ∀ v, ∀ e ∈ check v, e.path.head? = some (.key f)) :
    ∀ e ∈ optionalField o f check, e.path.head? = some (.key f) := by
  cases h : Obj.get o f with
  | none => simp [optionalField, h]
  | some v =>
    intro e he
    simp only [optionalField, h] at he
    exact hcheck v e he

/-- A present-field issue block is nonempty only when the field is present:
an optionalField block of an absent field is empty. -/
theorem optionalField_absent (o : Obj) (f : String) (check : JVal → List Issue)
    (h : Obj.get o f = none) : optionalField o f check = [] := by
  simp [optionalField, h]

/-! ## Store helper lemmas -/

/-- Writing back the element already at position i changes nothing. -/
theorem set_getD_self (l : List Obj) (i : Nat) (h : i < l.length) :
    l.set i (l.getD i []) = l := by
  apply List.ext_getElem
  · simp
  · intro n h1 h2
    rw [List.getElem_set]
    split
    · next heq => subst heq; rw [List.getD_eq_getElem l [] h]
    · rfl

/-! ## Claim theorems -/

/-- Claim C1: the claim fails on the code.  A POST whose body fails
validateFull does mutate the store: the 400 response is sent, but the
missing early return lets the handler push an id-only record built from
the undefined result.data, and that record does not satisfy the full
schema.  Evaluated at the concrete failing input (empty body, empty
store). -/
theorem c1_post_invalid_body_mutates_store :
    (validateMovie 2024 []).success = false ∧
    (postMovies 2024 [] [] "aaa-111").1 = [[("id", JVal.str "aaa-111")]] ∧
    ((postMovies 2024 [] [] "aaa-111").2.map Response.status) = [400, 201] ∧
    (validateMovie 2024 [("id", JVal.str "aaa-111")]).success = false := by
  decide

/-- Claim C2: the claim fails on the code.  The genre filter compares
each stored tag with itself, so GET /movies?genre=action returns the
drama-only movie even though none of its genre entries matches "action";
the spec-side listByGenre (case-insensitive comparison against the query
tag) excludes it and keeps genuine matches. -/
theorem c2_genre_filter_ignores_query :
    (getMovies [dramaMovie] none (some "action")).body = .jsonList [dramaMovie] ∧
    listByGenre [dramaMovie] "action" = [] ∧
    listByGenre [dramaMovie, actionMovie] "Action" = [actionMovie] := by
  decide

/-- Claim C4: for an id not in the store, GET by id answers 400 with the
not-found page, PATCH and DELETE answer 404 with the message Movie not
found, and none of the three mutates the collection. -/
theorem c4_absent_id (store : List Obj) (id : String)
    (hid : ∀ m ∈ store, movieIdMatches id m = false) :
    getMovieById store id = ⟨400, .html "<h1>Movie not found</h1>", []⟩ ∧
    (∀ currentYear body, (patchMovie currentYear store id body).1 = store) ∧
    (∀ currentYear body, (validateMoviePartial currentYear body).success = true →
        (patchMovie currentYear store id body).2 =
          [⟨404, .jsonMsg "Movie not found", []⟩]) ∧
    (∀ origin, deleteMovie store origin id =
        (store, ⟨404, .jsonMsg "Movie not found", corsHeaders origin⟩)) := by
  have hfind : store.find? (movieIdMatches id) = none :=
    List.find?_eq_none.mpr (fun m hm => by simp [hid m hm])
  have hfidx : store.findIdx? (movieIdMatches id) = none :=
    List.findIdx?_eq_none_iff.mpr hid
  refine ⟨?_, ?_, ?_, ?_⟩
  · simp [getMovieById, hfind]
  · intro currentYear body
    simp [patchMovie, hfidx]
  · intro currentYear body hv
    simp [patchMovie, hfidx, hv]
  · intro origin
    simp [deleteMovie, hfidx]

theorem c4_absent_id_witness :
    getMovieById [dramaMovie] "zzz" = ⟨400, .html "<h1>Movie not found</h1>", []⟩ ∧
    (patchMovie 2024 [dramaMovie] "zzz" []).1 = [dramaMovie] ∧
    deleteMovie [dramaMovie] none "zzz" =
      ([dramaMovie], ⟨404, .jsonMsg "Movie not found", []⟩) := by
  obtain ⟨h1, h2, h3, h4⟩ := c4_absent_id [dramaMovie] "zzz" (by decide)
  exact ⟨h1, h2 2024 [], h4 none⟩

/-- Claim C10: a PATCH on an existing id whose body fails validatePartial
leaves the store unchanged: the 400 is sent first and the handler keeps
going, but the merge spreads the undefined result.data — merging nothing
— and writes the old record back in place. -/
theorem c10_patch_invalid_body_preserves_store (currentYear : ℤ) (store : List Obj)
    (id : String) (body : Obj) (i : Nat)
    (hfind : store.findIdx? (movieIdMatches id) = some i)
    (hval : (validateMoviePartial currentYear body).success = false) :
    (patchMovie currentYear store id body).1 = store ∧
    (patchMovie currentYear store id body).2 =
      [⟨400, .jsonErr (looseIssues currentYear body), []⟩,
       ⟨201, .jsonObj (store.getD i []), []⟩] := by
  have hres : validateMoviePartial currentYear body =
      .err (looseIssues currentYear body) := by
    unfold validateMoviePartial at hval ⊢
    split at hval
    · simp [ParseResult.success] at hval
    · next h => rw [if_neg h]
  obtain ⟨hlt, -⟩ := List.findIdx?_eq_some_iff_findIdx_eq.mp hfind
  constructor
  · simp only [patchMovie, hfind, hres, ParseResult.dataObj, ParseResult.success]
    rw [Obj.spread_nil, set_getD_self store i hlt]
  · simp [patchMovie, hfind, hres, ParseResult.dataObj, ParseResult.success,
      ParseResult.issues, Obj.spread_nil]

theorem c10_witness :
    [dramaMovie].findIdx? (movieIdMatches "m1") = some 0 ∧
    (validateMoviePartial 2024 [("rating", JVal.num 11)]).success = false ∧
    (patchMovie 2024 [dramaMovie] "m1" [("rating", JVal.num 11)]).1 = [dramaMovie] :=
  ⟨by decide, by decide,
    (c10_patch_invalid_body_preserves_store 2024 [dramaMovie] "m1"
      [("rating", JVal.num 11)] 0 (by decide) (by decide)).1⟩

/-- Claim C9: an allowed origin is echoed back exactly (never a
wildcard) in Access-Control-Allow-Origin; an absent or unknown origin
gets no access-control headers; and in every case the underlying
operation — listing, deleting, answering the pre-flight — is unaffected
by the gate's decision. -/
theorem c9_origin_gate :
    (∀ o, ACCEPTED_ORIGINS.contains o = true →
        corsHeaders (some o) = [("Access-Control-Allow-Origin", o)] ∧
        (optionsMovies (some o)).headers =
          [("Access-Control-Allow-Origin", o),
           ("Access-Control-Allow-Methods", "GET, POST, PATCH, DELETE"),
           ("Access-Control-Allow-Headers", "Content-Type, Authorization")]) ∧
    (∀ o, ACCEPTED_ORIGINS.contains o = false →
        corsHeaders (some o) = [] ∧ (optionsMovies (some o)).headers = []) ∧
    (corsHeaders none = [] ∧ (optionsMovies none).headers = []) ∧
    (∀ origin origin2 store genreQ,
        (getMovies store origin genreQ).status = (getMovies store origin2 genreQ).status ∧
        (getMovies store origin genreQ).body = (getMovies store origin2 genreQ).body) ∧
    (∀ origin origin2 store id,
        (deleteMovie store origin id).1 = (deleteMovie store origin2 id).1 ∧
        (deleteMovie store origin id).2.status = (deleteMovie store origin2 id).2.status ∧
        (deleteMovie store origin id).2.body = (deleteMovie store origin2 id).2.body) ∧
    (∀ origin, (optionsMovies origin).status = 200) ∧
    (∀ origin, ∀ p ∈ corsHeaders origin, p.2 ≠ "*") := by
  refine ⟨?_, ?_, ?_, ?_, ?_, ?_, ?_⟩
  · intro o ho
    have hmem : o ∈ ACCEPTED_ORIGINS := List.elem_iff.mp ho
    have hne : (o == "") = false := by
      simp only [ACCEPTED_ORIGINS, List.mem_cons, List.not_mem_nil, or_false] at hmem
      rcases hmem with rfl | rfl | rfl <;> decide
    exact ⟨by simp [corsHeaders, ho, hmem],
      by simp [optionsMovies, optionsAllowed, hne, ho, hmem]⟩
  · intro o ho
    have hnm : o ∉ ACCEPTED_ORIGINS := fun hm =>
      Bool.noConfusion ((List.elem_iff.mpr hm).symm.trans ho)
    refine ⟨by simp [corsHeaders, ho, hnm], ?_⟩
    cases hne : (o == "") with
    | true => simp [optionsMovies, optionsAllowed, hne]
    | false => simp [optionsMovies, optionsAllowed, hne, ho, hnm]
  · exact ⟨rfl, rfl⟩
  · intro origin origin2 store genreQ
    cases h : queryTruthy genreQ <;> simp [getMovies, h]
  · intro origin origin2 store id
    cases h : store.findIdx? (movieIdMatches id) <;> simp [deleteMovie, h]
  · intro origin
    unfold optionsMovies
    split <;> rfl
  · intro origin p hp
    cases origin with
    | none => simp [corsHeaders] at hp
    | some o =>
      simp only [corsHeaders] at hp
      split at hp
      · next hc =>
        simp only [List.mem_singleton] at hp
        subst hp
        have hmem : o ∈ ACCEPTED_ORIGINS := List.elem_iff.mp hc
        simp only [ACCEPTED_ORIGINS, List.mem_cons, List.not_mem_nil, or_false] at hmem
        rcases hmem with rfl | rfl | rfl <;> decide
      · simp at hp

theorem c9_witness :
    corsHeaders (some "https://movies.com") =
      [("Access-Control-Allow-Origin", "https://movies.com")] ∧
    corsHeaders (some "https://evil.com") = [] ∧
    (optionsMovies none).headers = [] :=
  ⟨(c9_origin_gate.1 "https://movies.com" (by decide)).1,
   (c9_origin_gate.2.1 "https://evil.com" (by decide)).1,
   c9_origin_gate.2.2.1.2⟩

/-- Claim C7: deleting an existing id removes exactly the one matching
resource, preserves the relative order of all remaining resources,
shrinks the listed collection by exactly one, and answers 200 with the
message Movie deleted. -/
theorem c7_delete_existing (store : List Obj) (origin : Option String) (id : String)
    (i : Nat)
    (hfind : store.findIdx? (movieIdMatches id) = some i)
    (huniq : ∀ j, (hj : j < store.length) →
        movieIdMatches id (store.get ⟨j, hj⟩) = true → j = i) :
    ∃ hlt : i < store.length,
      (deleteMovie store origin id).1 = store.take i ++ store.drop (i + 1) ∧
      movieIdMatches id (store.get ⟨i, hlt⟩) = true ∧
      (deleteMovie store origin id).1.length + 1 = store.length ∧
      (∀ m ∈ (deleteMovie store origin id).1, movieIdMatches id m = false) ∧
      (deleteMovie store origin id).2 =
        ⟨200, .jsonMsg "Movie deleted", corsHeaders origin⟩ := by
  obtain ⟨hlt, hidx⟩ := List.findIdx?_eq_some_iff_findIdx_eq.mp hfind
  have hresult : (deleteMovie store origin id).1 = store.eraseIdx i := by
    simp [deleteMovie, hfind]
  refine ⟨hlt, ?_, ?_, ?_, ?_, ?_⟩
  · rw [hresult, List.eraseIdx_eq_take_drop_succ]
  · have hw : List.findIdx (movieIdMatches id) store < store.length := by
      rw [hidx]; exact hlt
    have := @List.findIdx_getElem _ (movieIdMatches id) store hw
    simpa [hidx, List.get_eq_getElem] using this
  · rw [hresult, List.length_eraseIdx]
    simp only [hlt, if_true]
    omega
  · intro m hm
    rw [hresult, List.eraseIdx_eq_take_drop_succ, List.mem_append] at hm
    cases hmatch : movieIdMatches id m with
    | false => rfl
    | true =>
      exfalso
      rcases hm with hm | hm
      · obtain ⟨j, hj, hjm⟩ := List.mem_iff_getElem.mp hm
        have hjlt : j < i := by
          have := hj
          simp [List.length_take] at this
          omega
        have hjstore : j < store.length := lt_trans hjlt hlt
        have hsj : store.get ⟨j, hjstore⟩ = m := by
          rw [List.get_eq_getElem, ← hjm, List.getElem_take]
        have hmj : movieIdMatches id (store.get ⟨j, hjstore⟩) = true := by
          rw [hsj]; exact hmatch
        exact absurd (huniq j hjstore hmj) (Nat.ne_of_lt hjlt)
      · obtain ⟨j, hj, hjm⟩ := List.mem_iff_getElem.mp hm
        have hjstore : i + 1 + j < store.length := by
          have := hj
          simp [List.length_drop] at this
          omega
        have hsj : store.get ⟨i + 1 + j, hjstore⟩ = m := by
          rw [List.get_eq_getElem, ← hjm, List.getElem_drop]
        have hmj : movieIdMatches id (store.get ⟨i + 1 + j, hjstore⟩) = true := by
          rw [hsj]; exact hmatch
        have := huniq (i + 1 + j) hjstore hmj
        omega
  · simp [deleteMovie, hfind]

theorem c7_witness :
    (deleteMovie [dramaMovie, actionMovie] (some "https://movies.com") "m2").1 =
      [dramaMovie] ∧
    (deleteMovie [dramaMovie, actionMovie] (some "https://movies.com") "m2").2 =
      ⟨200, .jsonMsg "Movie deleted",
        [("Access-Control-Allow-Origin", "https://movies.com")]⟩ := by
  obtain ⟨hlt, h1, h2, h3, h4, h5⟩ :=
    c7_delete_existing [dramaMovie, actionMovie] (some "https://movies.com") "m2" 1
      (by decide)
      (fun j hj hm => by
        have hj2 : j < 2 := by simpa using hj
        interval_cases j
        · have h0 : movieIdMatches "m2" ([dramaMovie, actionMovie].get ⟨0, hj⟩) = false := rfl
          exact Bool.noConfusion (h0.symm.trans hm)
        · rfl)
  exact ⟨by rw [h1]; decide, by rw [h5]; decide⟩

/-- Variant of set_getD_self stated through the optional index lookup. -/
theorem set_getElemD_self (l : List Obj) (i : Nat) (h : i < l.length) :
    l.set i (l[i]?.getD []) = l := by
  rw [List.getElem?_eq_getElem h, Option.getD_some]
  apply List.ext_getElem
  · simp
  · intro n h1 h2
    rw [List.getElem_set]
    split
    · next heq => subst heq; rfl
    · rfl

/-! ## Parsed-data key lemmas -/

/-- A key outside the key list never occurs in a filterMap projection of
the candidate over those keys. -/
theorem get_filterMap_keys (keys : List String) (o : Obj) (k : String)
    (hk : k ∉ keys) :
    Obj.get (keys.filterMap (fun f => (Obj.get o f).map (fun v => (f, v)))) k = none := by
  induction keys with
  | nil => rfl
  | cons f fs ih =>
    have hkf : k ∉ fs := fun hm => hk (List.mem_cons_of_mem f hm)
    have hfk : (f == k) = false := by
      cases hb : f == k
      · rfl
      · exact absurd (eq_of_beq hb ▸ List.mem_cons_self f fs) hk
    rw [List.filterMap_cons]
    cases h : Obj.get o f with
    | none => exact ih hkf
    | some v =>
      rw [Option.map_some', Obj.get_cons, hfk]
      simp only [Bool.false_eq_true, if_false]
      exact ih hkf

/-- The data of a successful partial parse never carries an id key. -/
theorem looseData_get_id (o : Obj) : Obj.get (looseData o) "id" = none :=
  get_filterMap_keys SCHEMA_KEYS o "id" (by decide)

/-- A successful validateMoviePartial returns exactly the looseData
projection of the candidate. -/
theorem validateMoviePartial_ok (currentYear : ℤ) (body data : Obj)
    (hval : validateMoviePartial currentYear body = .ok data) :
    data = looseData body := by
  unfold validateMoviePartial at hval
  split at hval
  · injection hval with h
    exact h.symm
  · exact ParseResult.noConfusion hval

/-- The empty candidate passes the partial validator with empty data. -/
theorem validateMoviePartial_empty (currentYear : ℤ) :
    validateMoviePartial currentYear [] = .ok [] := rfl

/-- Claim C6: PATCH on an existing id with a validated partial performs a
shallow merge: every provided field fully replaces the prior value, every
field not provided is untouched, the id field is never overwritten, and
the empty partial still succeeds and leaves the resource and the store
unchanged. -/
theorem c6_patch_shallow_merge (currentYear : ℤ) (store : List Obj) (id : String)
    (body : Obj) (i : Nat) (data : Obj)
    (hfind : store.findIdx? (movieIdMatches id) = some i)
    (hval : validateMoviePartial currentYear body = .ok data) :
    ∃ hlt : i < store.length,
      (patchMovie currentYear store id body).1 =
        store.set i (Obj.spread (store.get ⟨i, hlt⟩) data) ∧
      (patchMovie currentYear store id body).2 =
        [⟨201, .jsonObj (Obj.spread (store.get ⟨i, hlt⟩) data), []⟩] ∧
      (∀ k v, Obj.get data k = some v →
          Obj.get (Obj.spread (store.get ⟨i, hlt⟩) data) k = some v) ∧
      (∀ k, Obj.get data k = none →
          Obj.get (Obj.spread (store.get ⟨i, hlt⟩) data) k =
            Obj.get (store.get ⟨i, hlt⟩) k) ∧
      Obj.get (Obj.spread (store.get ⟨i, hlt⟩) data) "id" =
        Obj.get (store.get ⟨i, hlt⟩) "id" ∧
      (body = [] →
          data = [] ∧ (patchMovie currentYear store id body).1 = store) := by
  obtain ⟨hlt, -⟩ := List.findIdx?_eq_some_iff_findIdx_eq.mp hfind
  have hgetD : store[i]?.getD [] = store.get ⟨i, hlt⟩ := by
    rw [List.getElem?_eq_getElem hlt, Option.getD_some, List.get_eq_getElem]
  have hid : Obj.get data "id" = none := by
    rw [validateMoviePartial_ok currentYear body data hval]
    exact looseData_get_id body
  refine ⟨hlt, ?_, ?_, ?_, ?_, ?_, ?_⟩
  · simp [patchMovie, hfind, hval, ParseResult.success, ParseResult.dataObj, hgetD]
  · simp [patchMovie, hfind, hval, ParseResult.success, ParseResult.dataObj, hgetD]
  · intro k v hk
    exact Obj.get_spread_right _ data k v hk
  · intro k hk
    exact Obj.get_spread_left _ data k hk
  · exact Obj.get_spread_left _ data "id" hid
  · intro hbody
    subst hbody
    have hdata : data = [] := by
      have := hval.symm.trans (validateMoviePartial_empty currentYear)
      injection this
    subst hdata
    refine ⟨rfl, ?_⟩
    simp [patchMovie, hfind, hval, ParseResult.success, ParseResult.dataObj,
      Obj.spread_nil]
    exact set_getElemD_self store i hlt

theorem c6_witness :
    (patchMovie 2024 [dramaMovie] "m1" [("rating", JVal.num 9)]).1 =
      [[("id", .str "m1"), ("title", .str "X"), ("year", .num 2000),
        ("director", .str "D"), ("duration", .num 90),
        ("genre", .arr [.str "drama"]), ("rating", .num 9)]] ∧
    (patchMovie 2024 [dramaMovie] "m1" []).1 = [dramaMovie] := by
  obtain ⟨hlt, h1, -, -, -, -, -⟩ :=
    c6_patch_shallow_merge 2024 [dramaMovie] "m1" [("rating", JVal.num 9)] 0
      [("rating", JVal.num 9)] (by decide) (by decide)
  obtain ⟨hlt2, -, -, -, -, -, hempty⟩ :=
    c6_patch_shallow_merge 2024 [dramaMovie] "m1" [] 0 [] (by decide) (by decide)
  have hget0 : [dramaMovie].get ⟨0, hlt⟩ = dramaMovie := rfl
  rw [hget0] at h1
  exact ⟨by rw [h1]; decide, (hempty rfl).2⟩

/-! ## fullData lookup lemmas -/

theorem fullData_get_id (o : Obj) : Obj.get (fullData o) "id" = none := rfl

theorem fullData_get_title (o : Obj) :
    Obj.get (fullData o) "title" = some ((Obj.get o "title").getD (JVal.str "")) := rfl

theorem fullData_get_year (o : Obj) :
    Obj.get (fullData o) "year" = some ((Obj.get o "year").getD (JVal.str "")) := rfl

theorem fullData_get_director (o : Obj) :
    Obj.get (fullData o) "director" =
      some ((Obj.get o "director").getD (JVal.str "")) := rfl

theorem fullData_get_duration (o : Obj) :
    Obj.get (fullData o) "duration" =
      some ((Obj.get o "duration").getD (JVal.str "")) := rfl

theorem fullData_get_genre (o : Obj) :
    Obj.get (fullData o) "genre" = some ((Obj.get o "genre").getD (JVal.arr [])) := rfl

theorem fullData_get_rating (o : Obj) :
    Obj.get (fullData o) "rating" = some ((Obj.get o "rating").getD (JVal.num 5)) := rfl

/-- A successful validateMovie returns exactly the fullData projection. -/
theorem validateMovie_ok_of_success (currentYear : ℤ) (o : Obj)
    (h : (validateMovie currentYear o).success = true) :
    validateMovie currentYear o = .ok (fullData o) := by
  unfold validateMovie at h ⊢
  split at h
  · next hc => rw [if_pos hc]
  · simp [ParseResult.success] at h

/-- Claim C3: POSTing a body that passes validateFull appends exactly one
new record at the end of the store, answers only 201 with it, a GET of
the assigned id finds that record, and the record is the submitted fields
plus the server id plus the defaulted rating (5 when omitted). -/
theorem c3_post_then_get (currentYear : ℤ) (store : List Obj) (body : Obj)
    (newId : String)
    (hval : (validateMovie currentYear body).success = true)
    (hfresh : ∀ m ∈ store, movieIdMatches newId m = false) :
    (postMovies currentYear store body newId).1 =
      store ++ [Obj.spread [("id", JVal.str newId)] (fullData body)] ∧
    (postMovies currentYear store body newId).2 =
      [⟨201, .jsonObj (Obj.spread [("id", JVal.str newId)] (fullData body)), []⟩] ∧
    getMovieById (postMovies currentYear store body newId).1 newId =
      ⟨200, .jsonObj (Obj.spread [("id", JVal.str newId)] (fullData body)), []⟩ ∧
    Obj.get (Obj.spread [("id", JVal.str newId)] (fullData body)) "id" =
      some (JVal.str newId) ∧
    Obj.get (Obj.spread [("id", JVal.str newId)] (fullData body)) "title" =
      Obj.get body "title" ∧
    Obj.get (Obj.spread [("id", JVal.str newId)] (fullData body)) "year" =
      Obj.get body "year" ∧
    Obj.get (Obj.spread [("id", JVal.str newId)] (fullData body)) "director" =
      Obj.get body "director" ∧
    Obj.get (Obj.spread [("id", JVal.str newId)] (fullData body)) "duration" =
      Obj.get body "duration" ∧
    Obj.get (Obj.spread [("id", JVal.str newId)] (fullData body)) "genre" =
      Obj.get body "genre" ∧
    Obj.get (Obj.spread [("id", JVal.str newId)] (fullData body)) "rating" =
      some ((Obj.get body "rating").getD (JVal.num 5)) := by
  have hres : validateMovie currentYear body = .ok (fullData body) :=
    validateMovie_ok_of_success currentYear body hval
  obtain ⟨⟨t, ht⟩, ⟨qy, hy, -⟩, ⟨d, hd⟩, ⟨qd, hdu, -⟩, ⟨gs, hg, -⟩, -⟩ :=
    (fullIssues_nil_iff currentYear body).mp
      ((validateMovie_success_iff currentYear body).mp hval)
  have hid : Obj.get (Obj.spread [("id", JVal.str newId)] (fullData body)) "id" =
      some (JVal.str newId) := by
    rw [Obj.get_spread_left _ _ _ (fullData_get_id body)]
    rfl
  have hmatch : movieIdMatches newId
      (Obj.spread [("id", JVal.str newId)] (fullData body)) = true := by
    unfold movieIdMatches
    rw [hid]
    simp
  have hpost1 : (postMovies currentYear store body newId).1 =
      store ++ [Obj.spread [("id", JVal.str newId)] (fullData body)] := by
    simp [postMovies, hres, ParseResult.dataObj]
  refine ⟨hpost1, ?_, ?_, hid, ?_, ?_, ?_, ?_, ?_, ?_⟩
  · simp [postMovies, hres, ParseResult.dataObj]
  · have hnone : store.find? (movieIdMatches newId) = none :=
      List.find?_eq_none.mpr (fun m hm => by simp [hfresh m hm])
    rw [hpost1]
    unfold getMovieById
    rw [List.find?_append, hnone]
    simp [List.find?, hmatch]
  · have hfd : Obj.get (fullData body) "title" = some (JVal.str t) := by
      rw [fullData_get_title, ht]
      rfl
    rw [Obj.get_spread_right _ _ _ _ hfd, ht]
  · have hfd : Obj.get (fullData body) "year" = some (JVal.num qy) := by
      rw [fullData_get_year, hy]
      rfl
    rw [Obj.get_spread_right _ _ _ _ hfd, hy]
  · have hfd : Obj.get (fullData body) "director" = some (JVal.str d) := by
      rw [fullData_get_director, hd]
      rfl
    rw [Obj.get_spread_right _ _ _ _ hfd, hd]
  · have hfd : Obj.get (fullData body) "duration" = some (JVal.num qd) := by
      rw [fullData_get_duration, hdu]
      rfl
    rw [Obj.get_spread_right _ _ _ _ hfd, hdu]
  · have hfd : Obj.get (fullData body) "genre" = some (JVal.arr gs) := by
      rw [fullData_get_genre, hg]
      rfl
    rw [Obj.get_spread_right _ _ _ _ hfd, hg]
  · exact Obj.get_spread_right _ _ _ _ (fullData_get_rating body)

theorem c3_witness :
    (validateMovie 2024 goodBody).success = true ∧
    (postMovies 2024 [] goodBody "u1").2 =
      [⟨201, .jsonObj (Obj.spread [("id", JVal.str "u1")] (fullData goodBody)), []⟩] ∧
    getMovieById (postMovies 2024 [] goodBody "u1").1 "u1" =
      ⟨200, .jsonObj (Obj.spread [("id", JVal.str "u1")] (fullData goodBody)), []⟩ ∧
    Obj.get (Obj.spread [("id", JVal.str "u1")] (fullData goodBody)) "rating" =
      some (JVal.num 5) := by
  obtain ⟨-, h2, h3, -, -, -, -, -, -, h10⟩ :=
    c3_post_then_get 2024 [] goodBody "u1" (by decide) (by simp)
  exact ⟨by decide, h2, h3, by rw [h10]; decide⟩

/-- Claim C5: validateFull succeeds exactly when every field except
rating and id is supplied with its required type and range (title and
director text; year an integer in [1900, current year at validation
time]; duration a positive integer; genre a possibly-empty sequence over
the closed six-tag enum; rating optional, a number in [0, 10], defaulted
to 5 when omitted), and on failure the issue list names every offending
field, not merely the first. -/
theorem c5_validateFull_contract (currentYear : ℤ) (o : Obj) :
    ((validateMovie currentYear o).success = true ↔
      titleOK o ∧ yearOK currentYear o ∧ directorOK o ∧ durationOK o ∧
        genreOK o ∧ ratingOK o) ∧
    ((validateMovie currentYear o).success = true →
        Obj.get (validateMovie currentYear o).dataObj "rating" =
          some ((Obj.get o "rating").getD (JVal.num 5))) ∧
    (¬ titleOK o → ∃ e ∈ (validateMovie currentYear o).issues,
        e.path.head? = some (.key "title")) ∧
    (¬ yearOK currentYear o → ∃ e ∈ (validateMovie currentYear o).issues,
        e.path.head? = some (.key "year")) ∧
    (¬ directorOK o → ∃ e ∈ (validateMovie currentYear o).issues,
        e.path.head? = some (.key "director")) ∧
    (¬ durationOK o → ∃ e ∈ (validateMovie currentYear o).issues,
        e.path.head? = some (.key "duration")) ∧
    (¬ genreOK o → ∃ e ∈ (validateMovie currentYear o).issues,
        e.path.head? = some (.key "genre")) ∧
    (¬ ratingOK o → ∃ e ∈ (validateMovie currentYear o).issues,
        e.path.head? = some (.key "rating")) := by
  refine ⟨?_, ?_, ?_, ?_, ?_, ?_, ?_, ?_⟩
  · rw [validateMovie_success_iff, fullIssues_nil_iff]
  · intro h
    rw [validateMovie_data currentYear o h, fullData_get_rating]
  · intro hbad
    have hne : requireField o "title" (stringCheck "title") ≠ [] :=
      fun hnil => hbad ((titleIssues_nil o).mp hnil)
    obtain ⟨e, he⟩ := List.exists_mem_of_ne_nil _ hne
    refine ⟨e, ?_, requireField_path o "title" _ (stringCheck_path "title") e he⟩
    rw [validateMovie_issues]
    simp only [fullIssues, List.mem_append]
    tauto
  · intro hbad
    have hne : requireField o "year" (yearCheck currentYear) ≠ [] :=
      fun hnil => hbad ((yearIssues_nil currentYear o).mp hnil)
    obtain ⟨e, he⟩ := List.exists_mem_of_ne_nil _ hne
    refine ⟨e, ?_, requireField_path o "year" _ (yearCheck_path currentYear) e he⟩
    rw [validateMovie_issues]
    simp only [fullIssues, List.mem_append]
    tauto
  · intro hbad
    have hne : requireField o "director" (stringCheck "director") ≠ [] :=
      fun hnil => hbad ((directorIssues_nil o).mp hnil)
    obtain ⟨e, he⟩ := List.exists_mem_of_ne_nil _ hne
    refine ⟨e, ?_, requireField_path o "director" _ (stringCheck_path "director") e he⟩
    rw [validateMovie_issues]
    simp only [fullIssues, List.mem_append]
    tauto
  · intro hbad
    have hne : requireField o "duration" durationCheck ≠ [] :=
      fun hnil => hbad ((durationIssues_nil o).mp hnil)
    obtain ⟨e, he⟩ := List.exists_mem_of_ne_nil _ hne
    refine ⟨e, ?_, requireField_path o "duration" _ durationCheck_path e he⟩
    rw [validateMovie_issues]
    simp only [fullIssues, List.mem_append]
    tauto
  · intro hbad
    have hne : requireField o "genre" genreCheck ≠ [] :=
      fun hnil => hbad ((genreIssues_nil o).mp hnil)
    obtain ⟨e, he⟩ := List.exists_mem_of_ne_nil _ hne
    refine ⟨e, ?_, requireField_path o "genre" _ genreCheck_path e he⟩
    rw [validateMovie_issues]
    simp only [fullIssues, List.mem_append]
    tauto
  · intro hbad
    have hne : optionalField o "rating" ratingCheck ≠ [] :=
      fun hnil => hbad ((ratingIssues_nil o).mp hnil)
    obtain ⟨e, he⟩ := List.exists_mem_of_ne_nil _ hne
    refine ⟨e, ?_, optionalField_path o "rating" _ ratingCheck_path e he⟩
    rw [validateMovie_issues]
    simp only [fullIssues, List.mem_append]
    tauto

theorem c5_witness :
    (validateMovie 2024 goodBody).success = true ∧
    Obj.get (validateMovie 2024 goodBody).dataObj "rating" = some (JVal.num 5) ∧
    (∃ e ∈ (validateMovie 2024 badYearBody).issues,
        e.path.head? = some (.key "year")) := by
  have h := c5_validateFull_contract 2024 goodBody
  have hb := c5_validateFull_contract 2024 badYearBody
  refine ⟨by decide, ?_, ?_⟩
  · exact (h.2.1 (by decide)).trans (by decide)
  · apply hb.2.2.2.1
    rintro ⟨q, hq, hden, hge, hle⟩
    have hq' : Obj.get badYearBody "year" = some (JVal.num 1899) := by decide
    have heq := hq'.symm.trans hq
    injection heq with h1
    injection h1 with h2
    rw [← h2] at hge
    norm_num at hge

/-! ## Loose-parse per-issue provenance -/

theorem optionalField_mem_present (o : Obj) (f : String) (check : JVal → List Issue) :
    ∀ e ∈ optionalField o f check, Obj.get o f ≠ none := by
  cases h : Obj.get o f with
  | none => simp [optionalField, h]
  | some v =>
    intro e he hn
    exact Option.noConfusion hn

theorem looseIssues_mem (currentYear : ℤ) (o : Obj) :
    ∀ e ∈ looseIssues currentYear o,
      ∃ g, e.path.head? = some (.key g) ∧ Obj.get o g ≠ none := by
  intro e he
  simp only [looseIssues, List.mem_append] at he
  rcases he with ((((he | he) | he) | he) | he) | he
  · exact ⟨"title", optionalField_path o "title" _ (stringCheck_path "title") e he,
      optionalField_mem_present o "title" _ e he⟩
  · exact ⟨"year", optionalField_path o "year" _ (yearCheck_path currentYear) e he,
      optionalField_mem_present o "year" _ e he⟩
  · exact ⟨"director", optionalField_path o "director" _ (stringCheck_path "director") e he,
      optionalField_mem_present o "director" _ e he⟩
  · exact ⟨"duration", optionalField_path o "duration" _ durationCheck_path e he,
      optionalField_mem_present o "duration" _ e he⟩
  · exact ⟨"genre", optionalField_path o "genre" _ genreCheck_path e he,
      optionalField_mem_present o "genre" _ e he⟩
  · exact ⟨"rating", optionalField_path o "rating" _ ratingCheck_path e he,
      optionalField_mem_present o "rating" _ e he⟩

/-- Claim C8: validatePartial applies the same per-field constraints as
validateFull with every field optional: only present fields are checked,
an absent field never produces an error, a lone rating of 11 fails with a
rating-range violation, and the empty candidate succeeds. -/
theorem c8_validateLoose_contract (currentYear : ℤ) (o : Obj) :
    ((validateMoviePartial currentYear o).success = true ↔
      (Obj.get o "title" = none ∨ titleOK o) ∧
      (Obj.get o "year" = none ∨ yearOK currentYear o) ∧
      (Obj.get o "director" = none ∨ directorOK o) ∧
      (Obj.get o "duration" = none ∨ durationOK o) ∧
      (Obj.get o "genre" = none ∨ genreOK o) ∧
      ratingOK o) ∧
    (∀ f, Obj.get o f = none →
        ∀ e ∈ (validateMoviePartial currentYear o).issues,
          e.path.head? ≠ some (.key f)) ∧
    (validateMoviePartial currentYear [("rating", JVal.num 11)]).issues =
      [⟨[.key "rating"], "too_big"⟩] ∧
    (validateMoviePartial currentYear []).success = true := by
  refine ⟨?_, ?_, ?_, ?_⟩
  · rw [validateMoviePartial_success_iff, looseIssues_nil_iff]
  · intro f hf e he hhead
    rw [validateMoviePartial_issues] at he
    obtain ⟨g, hg, hpres⟩ := looseIssues_mem currentYear o e he
    rw [hhead] at hg
    injection hg with h1
    injection h1 with h2
    subst h2
    exact hpres hf
  · rfl
  · rfl

theorem c8_witness :
    (validateMoviePartial 2024 [("rating", JVal.num 11)]).issues =
      [⟨[.key "rating"], "too_big"⟩] ∧
    (validateMoviePartial 2024 []).success = true :=
  ⟨(c8_validateLoose_contract 2024 []).2.2.1, (c8_validateLoose_contract 2024 []).2.2.2⟩

end MoviesApi
